import Mathlib

/-!
Verification of the dataset reconciliation core of this repository
(`my_py_framework/data/compare_dataframes.py`, function
`audit_dataframe_differences`), against its natural-language specification.

The Python function operates on pandas DataFrames.  We embed the fragment of
pandas semantics the function uses:

* a cell is a dynamically typed value; the function only ever meets strings,
  numbers and the missing value NaN, so cells are modelled by `PyVal`;
* `df.columns = df.columns.str.lower()` renames the columns *in place* on the
  caller's object; we model mutation by returning the updated caller frames
  alongside the result;
* `df.astype(str)` returns a fresh frame with every cell replaced by its
  string representation (`str(nan) = "nan"`);
* `df.set_index(pk)` indexes rows by their `pk` cell, keeping duplicate keys;
  `df_indexed.loc[k]` yields the list of rows whose key equals `k`.  When that
  list has two or more rows, `pd.isna(row[col])` is a Series, and using it in
  a boolean context raises pandas' "truth value of a Series is ambiguous"
  ValueError; a raising path is modelled with `Except.error`;
* `Index.intersection` keeps the calling index's order and drops duplicates.
-/

/-- A Python value as seen by the comparison routine: a string, an integer,
or the missing value (NaN). -/
inductive PyVal where
  | str (s : String)
  | intV (n : Int)
  | nan
deriving DecidableEq

/-- `str(v)` in Python, restricted to the values modelled: strings print
themselves, integers print in decimal, and NaN prints as "nan"
(this is what `astype(str)` writes into each cell). -/
def PyVal.pyStr : PyVal → String
  | .str s => s
  | .intV n => toString n
  | .nan => "nan"

/-- `pd.isna` on a scalar cell: true exactly on the missing value. -/
def PyVal.isna : PyVal → Bool
  | .nan => true
  | _ => false

/-- The cell `astype(str)` produces from a cell. -/
def strCell (v : PyVal) : PyVal := .str v.pyStr

/-- ASCII lower-casing of a string, as `str.lower()` /
`df.columns.str.lower()` do on ASCII column names. -/
def lowerStr (s : String) : String := ⟨s.data.map Char.toLower⟩

/-- A pandas DataFrame: named columns and rows of cells, the i-th cell of a
row belonging to the i-th column. -/
structure DataFrame where
  cols : List String
  rows : List (List PyVal)
deriving DecidableEq

/-- Well-formedness: each row has one cell per column. -/
def DataFrame.WF (df : DataFrame) : Prop :=
  ∀ r ∈ df.rows, r.length = df.cols.length

instance (df : DataFrame) : Decidable df.WF := by
  unfold DataFrame.WF; infer_instance

/-- `df.columns = df.columns.str.lower()`: the frame with its column names
lower-cased (the cells untouched).  In the Python source this assignment
mutates the caller's object. -/
def lowerCols (df : DataFrame) : DataFrame :=
  ⟨df.cols.map lowerStr, df.rows⟩

/-- `df.astype(str)`: a fresh frame with every cell stringified. -/
def astypeStr (df : DataFrame) : DataFrame :=
  ⟨df.cols, df.rows.map (List.map strCell)⟩

/-- Position of a column name in a column list (first occurrence),
as pandas label lookup on a duplicate-free column index. -/
def colIndex : List String → String → Option Nat
  | [], _ => none
  | c0 :: cs, c => if c0 = c then some 0 else (colIndex cs c).map (· + 1)

/-- `row[c]`: the cell of a row under column name `c`.  Under the validation
the function performs, the lookup always succeeds; the `nan` default is never
reached on validated inputs. -/
def cellAt (cols : List String) (r : List PyVal) (c : String) : PyVal :=
  match colIndex cols c with
  | some i => r.getD i .nan
  | none => .nan

/-- `df[pk]`: the column of key values, one per row. -/
def keyVals (df : DataFrame) (pk : String) : List PyVal :=
  df.rows.map (fun r => cellAt df.cols r pk)

/-- `df.set_index(pk)`: rows keyed by their `pk` cell; duplicate key values
are all retained.  (pandas removes the `pk` column from the indexed frame; we
keep the full row, which yields the same cells for every compared column,
since the key column is never compared.) -/
def setIndex (df : DataFrame) (pk : String) : List (PyVal × List PyVal) :=
  df.rows.map (fun r => (cellAt df.cols r pk, r))

/-- The column list of `df.set_index(pk)`: the columns without the key. -/
def idxColumns (df : DataFrame) (pk : String) : List String :=
  df.cols.erase pk

/-- `df_indexed.loc[k]`: every indexed row whose key equals `k`. -/
def locFilter (idx : List (PyVal × List PyVal)) (k : PyVal) : List (List PyVal) :=
  (idx.filter (fun p => p.1 == k)).map Prod.snd

/-- Duplicate removal keeping the first occurrence, as
`Index.intersection` deduplicates while preserving the calling
index's order. -/
def dedupKeepFirst : List PyVal → List PyVal
  | [] => []
  | k :: ks => k :: (dedupKeepFirst ks).filter (fun x => !(x == k))

/-- `srce_index.intersection(trgt_index)`: the common key values, in source
order, without duplicates. -/
def commonKeys (sKeys tKeys : List PyVal) : List PyVal :=
  dedupKeepFirst (sKeys.filter (fun k => tKeys.contains k))

/-- `set(srce.columns) == set(trgt.columns)`. -/
def sameColSet (c1 c2 : List String) : Bool :=
  c1.all (fun c => c2.contains c) && c2.all (fun c => c1.contains c)

/-- The columns selected for value comparison: the indexed source columns
minus the primary key, minus the lower-cased omit list.  (When
`omit_columns` is empty the Python guard `if omit_columns:` skips the second
filter, which filters nothing anyway.) -/
def columnsToCompare (colsIdxS : List String) (pk : String) (omitCols : List String) : List String :=
  let base := colsIdxS.filter (fun c => !(c == pk))
  let omitL := omitCols.map lowerStr
  base.filter (fun c => !(omitL.contains c))

/-- One entry of the column-differences report. -/
structure Mismatch where
  key : PyVal
  column : String
  srce_df_value : PyVal
  trgt_df_value : PyVal
deriving DecidableEq

/-- One entry of the missing-records report. -/
structure MissingRecord where
  key : PyVal
  missing_in : String
  table_name : String
deriving DecidableEq

/-- The missing-records output: either actual records or the message
DataFrame substituted when nothing is missing. -/
inductive MissingReport where
  | records (l : List MissingRecord)
  | placeholder (msg : String)
deriving DecidableEq

/-- The column-differences output: either actual mismatch rows or the
message DataFrame substituted when no difference is found. -/
inductive MismatchReport where
  | records (l : List Mismatch)
  | placeholder (msg : String)
deriving DecidableEq

/-- The mismatches a report carries (a placeholder carries none). -/
def MismatchReport.toList : MismatchReport → List Mismatch
  | .records l => l
  | .placeholder _ => []

instance {ε α : Type} [DecidableEq ε] [DecidableEq α] : DecidableEq (Except ε α) := fun a b =>
  match a, b with
  | .error e1, .error e2 =>
    if h : e1 = e2 then .isTrue (by rw [h]) else .isFalse (by simp [h])
  | .ok a1, .ok a2 =>
    if h : a1 = a2 then .isTrue (by rw [h]) else .isFalse (by simp [h])
  | .error _, .ok _ => .isFalse (by simp)
  | .ok _, .error _ => .isFalse (by simp)

def MISSING_IN_TARGET : String := "Target"

def MISSING_IN_SOURCE : String := "Source"

def MESSAGE_NO_MISMATCHED_RECORDS : String :=
  "There are no mismatched Records in Oracle and Postgres"

def MESSAGE_NO_DIFFERENCES_FOUND : String := "No differences found"

/-- The `ValueError` text for mismatched column sets. -/
def schemaMismatchMsg : String :=
  "The DataFrames must have the same columns to compare."

/-- The `ValueError` text for a missing primary key (the Python message
quotes the key between apostrophes). -/
def missingKeyMsg (pk : String) : String :=
  "Primary key " ++ quoteS ++ pk ++ quoteS ++ " not found in one or both DataFrames."
where quoteS : String := ⟨[Char.ofNat 39]⟩

/-- The `ValueError` pandas raises when a Series is used in a boolean
context, as happens when `.loc` on a duplicated key returns a frame. -/
def ambiguousSeriesMsg : String :=
  "The truth value of a Series is ambiguous. Use a.empty, a.bool(), a.item(), a.any() or a.all()."

/-- The per-cell test of the comparison loop, branch for branch: both cells
missing compare equal; one missing compares different; otherwise Python
`!=`. -/
def cellDiffers (sv tv : PyVal) : Bool :=
  if sv.isna && tv.isna then false
  else if sv.isna || tv.isna then true
  else sv != tv

/-- The spec's Field Differ restated as a plain string-inequality test on
the (stringified) cells, for the refinement comparison. -/
def plainStringNE (sv tv : PyVal) : Bool := sv.pyStr != tv.pyStr

/-- The inner loop over `columns_to_compare` for one common key: emit a
mismatch row for every column whose two cells differ under `ne`. -/
def compareRowsForKey (ne : PyVal → PyVal → Bool) (colsS colsT : List String)
    (colsCompare : List String) (k : PyVal) (sr tr : List PyVal) : List Mismatch :=
  colsCompare.foldr
    (fun col acc =>
      if ne (cellAt colsS sr col) (cellAt colsT tr col) then
        ⟨k, col, cellAt colsS sr col, cellAt colsT tr col⟩ :: acc
      else acc)
    []

/-- The outer loop over the common keys.  When `.loc` finds exactly one row
on each side, the cells are compared; when a key is duplicated on a side,
`.loc` returns a multi-row frame and the first `pd.isna(...)` truth test
raises the ambiguity ValueError — unless there is no column to compare, in
which case the inner loop body never runs. -/
def diffCommon (ne : PyVal → PyVal → Bool) (colsS colsT : List String)
    (colsCompare : List String) (sIdx tIdx : List (PyVal × List PyVal)) :
    List PyVal → Except String (List Mismatch)
  | [] => .ok []
  | k :: ks =>
    match locFilter sIdx k, locFilter tIdx k with
    | [sr], [tr] =>
      (diffCommon ne colsS colsT colsCompare sIdx tIdx ks).map
        (fun rest => compareRowsForKey ne colsS colsT colsCompare k sr tr ++ rest)
    | _, _ =>
      if colsCompare.isEmpty then diffCommon ne colsS colsT colsCompare sIdx tIdx ks
      else .error ambiguousSeriesMsg

/-- Records present in source but missing in target, tagged "Target" and the
target's logical table name. -/
def missingTargetRecs (s t : DataFrame) (pk trgt_table : String) : List MissingRecord :=
  (s.rows.filter (fun r => !((keyVals t pk).contains (cellAt s.cols r pk)))).map
    (fun r => ⟨cellAt s.cols r pk, MISSING_IN_TARGET, trgt_table⟩)

/-- Records present in target but missing in source, tagged "Source" and the
source's logical table name. -/
def missingSourceRecs (s t : DataFrame) (pk srce_table : String) : List MissingRecord :=
  (t.rows.filter (fun r => !((keyVals s pk).contains (cellAt t.cols r pk)))).map
    (fun r => ⟨cellAt t.cols r pk, MISSING_IN_SOURCE, srce_table⟩)

/-- `missing_data_df`: missing-in-target records first, then
missing-in-source records; the message frame when both are empty. -/
def missingReportOf (s t : DataFrame) (pk srce_table trgt_table : String) : MissingReport :=
  let l := missingTargetRecs s t pk trgt_table ++ missingSourceRecs s t pk srce_table
  if l.isEmpty then .placeholder MESSAGE_NO_MISMATCHED_RECORDS else .records l

/-- `mismatch_columns_df`: the collected differences, or the message frame
when there are none. -/
def mismatchReportOf (diffs : List Mismatch) : MismatchReport :=
  if diffs.isEmpty then .placeholder MESSAGE_NO_DIFFERENCES_FOUND else .records diffs

/-- The whole comparison phase on the normalized frames. -/
def diffsOf (ne : PyVal → PyVal → Bool) (s t : DataFrame) (pk : String)
    (omitCols : List String) : Except String (List Mismatch) :=
  diffCommon ne s.cols t.cols (columnsToCompare (idxColumns s pk) pk omitCols)
    (setIndex s pk) (setIndex t pk) (commonKeys (keyVals s pk) (keyVals t pk))

/-- `audit_dataframe_differences`, parameterized by the per-cell difference
test used in the comparison loop.  The first component of the result is the
caller-visible state of the two argument frames after the call: the in-place
column lower-casing is the only mutation (`astype(str)` rebinds the local
names to fresh frames).  The second component is the returned report pair,
or the text of the raised ValueError. -/
def auditWith (ne : PyVal → PyVal → Bool) (srce_df trgt_df : DataFrame)
    (primary_key srce_table trgt_table : String) (omit_columns : List String) :
    (DataFrame × DataFrame) × Except String (MissingReport × MismatchReport) :=
  let srce0 := lowerCols srce_df
  let trgt0 := lowerCols trgt_df
  let s := astypeStr srce0
  let t := astypeStr trgt0
  ((srce0, trgt0),
    if !(sameColSet s.cols t.cols) then Except.error schemaMismatchMsg
    else if !(s.cols.contains primary_key) || !(t.cols.contains primary_key) then
      Except.error (missingKeyMsg primary_key)
    else
      (diffsOf ne s t primary_key omit_columns).map
        (fun diffs =>
          (missingReportOf s t primary_key srce_table trgt_table,
           mismatchReportOf diffs)))

/-- The audited comparison as the source defines it. -/
def audit_dataframe_differences (srce_df trgt_df : DataFrame)
    (primary_key srce_table trgt_table : String) (omit_columns : List String) :
    (DataFrame × DataFrame) × Except String (MissingReport × MismatchReport) :=
  auditWith cellDiffers srce_df trgt_df primary_key srce_table trgt_table omit_columns

/-! ### Basic lemmas about the embedded pandas operations -/

theorem exceptMap_ok {α β ε : Type} (f : α → β) (a : α) :
    (Except.ok a : Except ε α).map f = .ok (f a) := rfl

theorem exceptMap_error {α β ε : Type} (f : α → β) (e : ε) :
    (Except.error e : Except ε α).map f = .error e := rfl

theorem mem_dedupKeepFirst {x : PyVal} {l : List PyVal} :
    x ∈ dedupKeepFirst l ↔ x ∈ l := by
  induction l with
  | nil => simp [dedupKeepFirst]
  | cons k ks ih =>
    by_cases hxk : x = k
    · subst hxk; simp [dedupKeepFirst]
    · simp [dedupKeepFirst, List.mem_filter, ih, hxk]

theorem nodup_dedupKeepFirst (l : List PyVal) : (dedupKeepFirst l).Nodup := by
  induction l with
  | nil => simp [dedupKeepFirst]
  | cons k ks ih =>
    rw [dedupKeepFirst, List.nodup_cons]
    refine ⟨fun hmem => ?_, ih.filter _⟩
    have := List.of_mem_filter hmem
    simp at this

theorem mem_commonKeys {k : PyVal} {sK tK : List PyVal} :
    k ∈ commonKeys sK tK ↔ k ∈ sK ∧ k ∈ tK := by
  simp [commonKeys, mem_dedupKeepFirst, List.mem_filter, List.elem_iff]

theorem nodup_commonKeys (sK tK : List PyVal) : (commonKeys sK tK).Nodup :=
  nodup_dedupKeepFirst _

theorem colIndex_lt_length {cols : List String} {c : String} {i : Nat}
    (h : colIndex cols c = some i) : i < cols.length := by
  induction cols generalizing i with
  | nil => simp [colIndex] at h
  | cons c0 cs ih =>
    by_cases h0 : c0 = c
    · rw [colIndex, if_pos h0] at h
      cases h
      simp
    · simp [colIndex, h0] at h
      obtain ⟨j, hj, rfl⟩ := h
      exact Nat.succ_lt_succ (ih hj)

theorem colIndex_of_mem {cols : List String} {c : String} (h : c ∈ cols) :
    ∃ i, colIndex cols c = some i := by
  induction cols with
  | nil => simp at h
  | cons c0 cs ih =>
    by_cases h0 : c0 = c
    · exact ⟨0, by simp [colIndex, h0]⟩
    · have hcs : c ∈ cs := by
        rcases List.mem_cons.mp h with h1 | h1
        · exact absurd h1.symm h0
        · exact h1
      obtain ⟨i, hi⟩ := ih hcs
      exact ⟨i + 1, by simp [colIndex, h0, hi]⟩

theorem cellAt_map_strCell {cols : List String} {r : List PyVal} {c : String}
    (hc : c ∈ cols) (hlen : r.length = cols.length) :
    cellAt cols (r.map strCell) c = strCell (cellAt cols r c) := by
  obtain ⟨i, hi⟩ := colIndex_of_mem hc
  have hilt : i < r.length := by rw [hlen]; exact colIndex_lt_length hi
  rw [cellAt, cellAt, hi]
  simp only [List.getD_eq_getElem?_getD, List.getElem?_map, List.getElem?_eq_getElem hilt]
  simp

theorem length_locFilter (df : DataFrame) (pk : String) (k : PyVal) :
    (locFilter (setIndex df pk) k).length = (keyVals df pk).count k := by
  simp only [locFilter, setIndex, keyVals, List.length_map,
    ← List.countP_eq_length_filter, List.countP_map, List.count]
  rfl

theorem locFilter_eq_single {df : DataFrame} {pk : String} {k : PyVal} {r : List PyVal}
    (hnd : (keyVals df pk).Nodup) (hr : r ∈ df.rows) (hk : cellAt df.cols r pk = k) :
    locFilter (setIndex df pk) k = [r] := by
  have hkmem : k ∈ keyVals df pk := by
    simp only [keyVals, List.mem_map]
    exact ⟨r, hr, hk⟩
  have hlen : (locFilter (setIndex df pk) k).length = 1 := by
    rw [length_locFilter, List.count_eq_one_of_mem hnd hkmem]
  obtain ⟨a, ha⟩ := List.length_eq_one.mp hlen
  have hpmem : (k, r) ∈ setIndex df pk := by
    simp only [setIndex, List.mem_map]
    exact ⟨r, hr, by rw [hk]⟩
  have hrmem : r ∈ locFilter (setIndex df pk) k := by
    simp only [locFilter, List.mem_map, List.mem_filter]
    exact ⟨(k, r), ⟨hpmem, by simp⟩, rfl⟩
  rw [ha] at hrmem ⊢
  rw [List.mem_singleton.mp hrmem]

theorem locFilter_single_of_mem {df : DataFrame} {pk : String} {k : PyVal}
    (hnd : (keyVals df pk).Nodup) (hk : k ∈ keyVals df pk) :
    ∃ r ∈ df.rows, cellAt df.cols r pk = k ∧ locFilter (setIndex df pk) k = [r] := by
  simp only [keyVals, List.mem_map] at hk
  obtain ⟨r, hr, hck⟩ := hk
  exact ⟨r, hr, hck, locFilter_eq_single hnd hr hck⟩

/-! ### Lemmas about the comparison loop -/

theorem compareRowsForKey_cons (ne : PyVal → PyVal → Bool) (colsS colsT : List String)
    (c : String) (cs : List String) (k : PyVal) (sr tr : List PyVal) :
    compareRowsForKey ne colsS colsT (c :: cs) k sr tr =
      (if ne (cellAt colsS sr c) (cellAt colsT tr c) then
        [⟨k, c, cellAt colsS sr c, cellAt colsT tr c⟩] else []) ++
      compareRowsForKey ne colsS colsT cs k sr tr := by
  rw [compareRowsForKey, compareRowsForKey, List.foldr_cons]
  split <;> simp

theorem mem_compareRowsForKey {ne : PyVal → PyVal → Bool} {colsS colsT cc : List String}
    {k : PyVal} {sr tr : List PyVal} {m : Mismatch}
    (h : m ∈ compareRowsForKey ne colsS colsT cc k sr tr) :
    m.column ∈ cc ∧ m.key = k := by
  induction cc with
  | nil => simp [compareRowsForKey] at h
  | cons c cs ih =>
    rw [compareRowsForKey_cons] at h
    rcases List.mem_append.mp h with h1 | h1
    · split at h1
      · rw [List.mem_singleton.mp h1]
        exact ⟨List.mem_cons_self _ _, rfl⟩
      · simp at h1
    · obtain ⟨hcol, hkey⟩ := ih h1
      exact ⟨List.mem_cons_of_mem _ hcol, hkey⟩

theorem countP_compareRowsForKey {ne : PyVal → PyVal → Bool} {colsS colsT : List String}
    {cc : List String} {c : String} {k : PyVal} {sr tr : List PyVal}
    (hc : c ∈ cc) (hnd : cc.Nodup) :
    (compareRowsForKey ne colsS colsT cc k sr tr).countP (fun m => m.column == c) =
      if ne (cellAt colsS sr c) (cellAt colsT tr c) then 1 else 0 := by
  induction cc with
  | nil => simp at hc
  | cons c0 cs ih =>
    rw [compareRowsForKey_cons, List.countP_append]
    rcases List.mem_cons.mp hc with rfl | hcs
    · have hnotin : c ∉ cs := (List.nodup_cons.mp hnd).1
      have htail :
          (compareRowsForKey ne colsS colsT cs k sr tr).countP (fun m => m.column == c) = 0 := by
        apply List.countP_eq_zero.mpr
        intro m hm
        have hmc := (mem_compareRowsForKey hm).1
        simp only [beq_iff_eq]
        intro hEq
        exact hnotin (hEq ▸ hmc)
      rw [htail]
      split <;> simp
    · have hne : c0 ≠ c := by
        rintro rfl
        exact (List.nodup_cons.mp hnd).1 hcs
      have hhead :
          (if ne (cellAt colsS sr c0) (cellAt colsT tr c0) then
            ([⟨k, c0, cellAt colsS sr c0, cellAt colsT tr c0⟩] : List Mismatch)
          else []).countP (fun m => m.column == c) = 0 := by
        split <;> simp [hne]
      rw [hhead, ih hcs (List.nodup_cons.mp hnd).2]
      simp

theorem compareRowsForKey_self (ne : PyVal → PyVal → Bool) (colsS colsT : List String)
    (cc : List String) (k : PyVal) (r : List PyVal)
    (hrefl : ∀ v, ne v v = false) (hcols : colsS = colsT) :
    compareRowsForKey ne colsS colsT cc k r r = [] := by
  subst hcols
  induction cc with
  | nil => rfl
  | cons c cs ih => rw [compareRowsForKey_cons, hrefl, ih]; rfl

/-! ### Lemmas about the outer loop over common keys -/

theorem diffCommon_cons_single {ne : PyVal → PyVal → Bool} {colsS colsT cc : List String}
    {sIdx tIdx : List (PyVal × List PyVal)} {k : PyVal} {ks : List PyVal}
    {sr tr : List PyVal}
    (hs : locFilter sIdx k = [sr]) (ht : locFilter tIdx k = [tr]) :
    diffCommon ne colsS colsT cc sIdx tIdx (k :: ks) =
      (diffCommon ne colsS colsT cc sIdx tIdx ks).map
        (fun rest => compareRowsForKey ne colsS colsT cc k sr tr ++ rest) := by
  rw [diffCommon, hs, ht]

theorem diffCommon_cons_bad {ne : PyVal → PyVal → Bool} {colsS colsT cc : List String}
    {sIdx tIdx : List (PyVal × List PyVal)} {k : PyVal} {ks : List PyVal}
    (hbad : (locFilter sIdx k).length ≠ 1 ∨ (locFilter tIdx k).length ≠ 1) :
    diffCommon ne colsS colsT cc sIdx tIdx (k :: ks) =
      if cc.isEmpty then diffCommon ne colsS colsT cc sIdx tIdx ks
      else .error ambiguousSeriesMsg := by
  rcases hS : locFilter sIdx k with _ | ⟨sr, _ | ⟨sr2, srs⟩⟩ <;>
    rcases hT : locFilter tIdx k with _ | ⟨tr, _ | ⟨tr2, trs⟩⟩ <;>
      rw [diffCommon, hS, hT]
  exfalso
  rw [hS, hT] at hbad
  simp at hbad

theorem diffCommon_error_msg {ne : PyVal → PyVal → Bool} {colsS colsT cc : List String}
    {sIdx tIdx : List (PyVal × List PyVal)} {common : List PyVal} {e : String}
    (h : diffCommon ne colsS colsT cc sIdx tIdx common = .error e) :
    e = ambiguousSeriesMsg := by
  induction common with
  | nil => simp [diffCommon] at h
  | cons k ks ih =>
    by_cases hlen : (locFilter sIdx k).length = 1 ∧ (locFilter tIdx k).length = 1
    · obtain ⟨sr, hsr⟩ := List.length_eq_one.mp hlen.1
      obtain ⟨tr, htr⟩ := List.length_eq_one.mp hlen.2
      rw [diffCommon_cons_single hsr htr] at h
      cases hrec : diffCommon ne colsS colsT cc sIdx tIdx ks with
      | error e' =>
        rw [hrec, exceptMap_error] at h
        cases h
        exact ih hrec
      | ok l => rw [hrec, exceptMap_ok] at h; cases h
    · rw [diffCommon_cons_bad (by tauto)] at h
      split at h
      · exact ih h
      · cases h; rfl

theorem diffCommon_ok_mem {ne : PyVal → PyVal → Bool} {colsS colsT cc : List String}
    {sIdx tIdx : List (PyVal × List PyVal)} {common : List PyVal} {L : List Mismatch}
    {m : Mismatch}
    (h : diffCommon ne colsS colsT cc sIdx tIdx common = .ok L) (hm : m ∈ L) :
    m.column ∈ cc ∧ m.key ∈ common := by
  induction common generalizing L with
  | nil =>
    rw [diffCommon] at h
    cases h
    simp at hm
  | cons k ks ih =>
    by_cases hlen : (locFilter sIdx k).length = 1 ∧ (locFilter tIdx k).length = 1
    · obtain ⟨sr, hsr⟩ := List.length_eq_one.mp hlen.1
      obtain ⟨tr, htr⟩ := List.length_eq_one.mp hlen.2
      rw [diffCommon_cons_single hsr htr] at h
      cases hrec : diffCommon ne colsS colsT cc sIdx tIdx ks with
      | error e' => rw [hrec, exceptMap_error] at h; cases h
      | ok L' =>
        rw [hrec, exceptMap_ok] at h
        have hL : compareRowsForKey ne colsS colsT cc k sr tr ++ L' = L := by
          cases h; rfl
        subst hL
        rcases List.mem_append.mp hm with h1 | h1
        · obtain ⟨hcol, hkey⟩ := mem_compareRowsForKey h1
          exact ⟨hcol, hkey ▸ List.mem_cons_self _ _⟩
        · obtain ⟨hcol, hkey⟩ := ih hrec h1
          exact ⟨hcol, List.mem_cons_of_mem _ hkey⟩
    · rw [diffCommon_cons_bad (by tauto)] at h
      split at h
      · obtain ⟨hcol, hkey⟩ := ih h hm
        exact ⟨hcol, List.mem_cons_of_mem _ hkey⟩
      · cases h

theorem diffCommon_ok_of_single {ne : PyVal → PyVal → Bool} {colsS colsT cc : List String}
    {sIdx tIdx : List (PyVal × List PyVal)} {common : List PyVal}
    (hS : ∀ k ∈ common, ∃ r, locFilter sIdx k = [r])
    (hT : ∀ k ∈ common, ∃ r, locFilter tIdx k = [r]) :
    diffCommon ne colsS colsT cc sIdx tIdx common =
      .ok (common.flatMap (fun k =>
        compareRowsForKey ne colsS colsT cc k
          ((locFilter sIdx k).headD []) ((locFilter tIdx k).headD []))) := by
  induction common with
  | nil => rw [diffCommon]; rfl
  | cons k ks ih =>
    obtain ⟨sr, hsr⟩ := hS k (List.mem_cons_self _ _)
    obtain ⟨tr, htr⟩ := hT k (List.mem_cons_self _ _)
    rw [diffCommon_cons_single hsr htr,
      ih (fun k' hk' => hS k' (List.mem_cons_of_mem _ hk'))
        (fun k' hk' => hT k' (List.mem_cons_of_mem _ hk')), exceptMap_ok]
    simp [List.flatMap_cons, hsr, htr]

theorem diffCommon_error_of_bad {ne : PyVal → PyVal → Bool} {colsS colsT cc : List String}
    {sIdx tIdx : List (PyVal × List PyVal)} {common : List PyVal} {k : PyVal}
    (hcc : cc ≠ []) (hk : k ∈ common)
    (hbad : (locFilter sIdx k).length ≠ 1 ∨ (locFilter tIdx k).length ≠ 1) :
    diffCommon ne colsS colsT cc sIdx tIdx common = .error ambiguousSeriesMsg := by
  have hccE : cc.isEmpty = false := by
    cases cc
    · exact absurd rfl hcc
    · rfl
  induction common with
  | nil => simp at hk
  | cons a ks ih =>
    rcases List.mem_cons.mp hk with rfl | hkks
    · rw [diffCommon_cons_bad hbad, hccE]
      rfl
    · by_cases hlen : (locFilter sIdx a).length = 1 ∧ (locFilter tIdx a).length = 1
      · obtain ⟨sr, hsr⟩ := List.length_eq_one.mp hlen.1
        obtain ⟨tr, htr⟩ := List.length_eq_one.mp hlen.2
        rw [diffCommon_cons_single hsr htr, ih hkks]
        rfl
      · rw [diffCommon_cons_bad (by tauto), hccE]
        rfl

/-! ### Counting mismatches across keys -/

theorem countP_flatMap_zero {l : List PyVal} {f : PyVal → List Mismatch}
    {p : Mismatch → Bool} (h : ∀ k ∈ l, (f k).countP p = 0) :
    (l.flatMap f).countP p = 0 := by
  induction l with
  | nil => simp
  | cons a l2 ih =>
    rw [List.flatMap_cons, List.countP_append, h a (List.mem_cons_self _ _),
      ih (fun k hk => h k (List.mem_cons_of_mem _ hk))]

theorem countP_flatMap_single {common : List PyVal} {f : PyVal → List Mismatch}
    {p : Mismatch → Bool} {k : PyVal} (hnd : common.Nodup) (hk : k ∈ common)
    (hz : ∀ k' ∈ common, k' ≠ k → (f k').countP p = 0) :
    (common.flatMap f).countP p = (f k).countP p := by
  induction common with
  | nil => simp at hk
  | cons a l ih =>
    rw [List.flatMap_cons, List.countP_append]
    rcases List.mem_cons.mp hk with rfl | hkl
    · have hrest : (l.flatMap f).countP p = 0 := by
        apply countP_flatMap_zero
        intro k' hk'
        refine hz k' (List.mem_cons_of_mem _ hk') ?_
        rintro rfl
        exact (List.nodup_cons.mp hnd).1 hk'
      rw [hrest]
      simp
    · have ha : (f a).countP p = 0 := by
        refine hz a (List.mem_cons_self _ _) ?_
        rintro rfl
        exact (List.nodup_cons.mp hnd).1 hkl
      rw [ha, ih (List.nodup_cons.mp hnd).2 hkl
        (fun k' h1 h2 => hz k' (List.mem_cons_of_mem _ h1) h2)]
      simp

/-! ### Lemmas about the audited function -/

theorem sameColSet_refl (c : List String) : sameColSet c c = true := by
  simp [sameColSet, List.all_eq_true, List.elem_iff]

theorem sameColSet_mem {c1 c2 : List String} (h : sameColSet c1 c2 = true) {x : String} :
    x ∈ c1 ↔ x ∈ c2 := by
  rw [sameColSet, Bool.and_eq_true, List.all_eq_true, List.all_eq_true] at h
  constructor
  · intro hx
    exact List.elem_iff.mp (h.1 x hx)
  · intro hx
    exact List.elem_iff.mp (h.2 x hx)

theorem cellDiffers_refl (v : PyVal) : cellDiffers v v = false := by
  cases v <;> simp [cellDiffers, PyVal.isna]

theorem pyvalStr_bne (a b : String) : (PyVal.str a != PyVal.str b) = (a != b) := by
  by_cases h : a = b
  · subst h; simp
  · have h1 : (PyVal.str a != PyVal.str b) = true := bne_iff_ne.mpr (by simpa using h)
    have h2 : (a != b) = true := bne_iff_ne.mpr h
    rw [h1, h2]

theorem cellDiffers_str_eq (a b : String) : cellDiffers (.str a) (.str b) = (a != b) := by
  rw [cellDiffers]
  simp only [PyVal.isna, Bool.false_and, Bool.false_or, if_false]
  exact pyvalStr_bne a b

theorem cellDiffers_str (a b : String) :
    cellDiffers (.str a) (.str b) = plainStringNE (.str a) (.str b) := by
  rw [cellDiffers_str_eq]
  rfl

theorem cellDiffers_strCell (a b : PyVal) :
    cellDiffers (strCell a) (strCell b) = (a.pyStr != b.pyStr) := by
  rw [strCell, strCell, cellDiffers_str_eq]

theorem toList_mismatchReportOf (diffs : List Mismatch) :
    (mismatchReportOf diffs).toList = diffs := by
  rw [mismatchReportOf]
  split
  · next hE => rw [MismatchReport.toList, List.isEmpty_iff.mp hE]
  · rfl

theorem lowerCols_cols (df : DataFrame) : (lowerCols df).cols = df.cols.map lowerStr := rfl

theorem lowerCols_rows (df : DataFrame) : (lowerCols df).rows = df.rows := rfl

theorem astypeStr_cols (df : DataFrame) : (astypeStr df).cols = df.cols := rfl

theorem WF_lowerCols {df : DataFrame} (h : df.WF) : (lowerCols df).WF := by
  intro r hr
  simpa [lowerCols] using h r hr

theorem WF_astypeStr {df : DataFrame} (h : df.WF) : (astypeStr df).WF := by
  intro r hr
  simp only [astypeStr, List.mem_map] at hr
  obtain ⟨r0, h0, rfl⟩ := hr
  simpa [astypeStr] using h r0 h0

theorem keyVals_astypeStr {df : DataFrame} {pk : String} (hpk : pk ∈ df.cols) (hWF : df.WF) :
    keyVals (astypeStr df) pk = (keyVals df pk).map strCell := by
  simp only [keyVals, astypeStr, List.map_map]
  apply List.map_congr_left
  intro r hr
  exact cellAt_map_strCell hpk (hWF r hr)

theorem auditWith_fst (ne : PyVal → PyVal → Bool) (srce trgt : DataFrame)
    (pk st_ tt_ : String) (omc : List String) :
    (auditWith ne srce trgt pk st_ tt_ omc).1 = (lowerCols srce, lowerCols trgt) := rfl

theorem auditWith_snd (ne : PyVal → PyVal → Bool) (srce trgt : DataFrame)
    (pk st_ tt_ : String) (omc : List String) :
    (auditWith ne srce trgt pk st_ tt_ omc).2 =
      (if !(sameColSet (astypeStr (lowerCols srce)).cols (astypeStr (lowerCols trgt)).cols) then
        Except.error schemaMismatchMsg
      else if !((astypeStr (lowerCols srce)).cols.contains pk) ||
          !((astypeStr (lowerCols trgt)).cols.contains pk) then
        Except.error (missingKeyMsg pk)
      else
        (diffsOf ne (astypeStr (lowerCols srce)) (astypeStr (lowerCols trgt)) pk omc).map
          (fun diffs =>
            (missingReportOf (astypeStr (lowerCols srce)) (astypeStr (lowerCols trgt)) pk st_ tt_,
             mismatchReportOf diffs))) := rfl

theorem auditWith_snd_schema_err {ne : PyVal → PyVal → Bool} {srce trgt : DataFrame}
    {pk st_ tt_ : String} {omc : List String}
    (h : sameColSet (astypeStr (lowerCols srce)).cols (astypeStr (lowerCols trgt)).cols = false) :
    (auditWith ne srce trgt pk st_ tt_ omc).2 = .error schemaMismatchMsg := by
  rw [auditWith_snd, h]
  rfl

theorem auditWith_snd_key_err {ne : PyVal → PyVal → Bool} {srce trgt : DataFrame}
    {pk st_ tt_ : String} {omc : List String}
    (h1 : sameColSet (astypeStr (lowerCols srce)).cols (astypeStr (lowerCols trgt)).cols = true)
    (h2 : ((astypeStr (lowerCols srce)).cols.contains pk &&
      (astypeStr (lowerCols trgt)).cols.contains pk) = false) :
    (auditWith ne srce trgt pk st_ tt_ omc).2 = .error (missingKeyMsg pk) := by
  rw [auditWith_snd, h1]
  have h3 : (!((astypeStr (lowerCols srce)).cols.contains pk) ||
      !((astypeStr (lowerCols trgt)).cols.contains pk)) = true := by
    rw [← Bool.not_and, h2]
    rfl
  rw [h3]
  rfl

theorem auditWith_snd_valid {ne : PyVal → PyVal → Bool} {srce trgt : DataFrame}
    {pk st_ tt_ : String} {omc : List String}
    (h1 : sameColSet (astypeStr (lowerCols srce)).cols (astypeStr (lowerCols trgt)).cols = true)
    (h2 : (astypeStr (lowerCols srce)).cols.contains pk = true)
    (h3 : (astypeStr (lowerCols trgt)).cols.contains pk = true) :
    (auditWith ne srce trgt pk st_ tt_ omc).2 =
      (diffsOf ne (astypeStr (lowerCols srce)) (astypeStr (lowerCols trgt)) pk omc).map
        (fun diffs =>
          (missingReportOf (astypeStr (lowerCols srce)) (astypeStr (lowerCols trgt)) pk st_ tt_,
           mismatchReportOf diffs)) := by
  rw [auditWith_snd, h1, h2, h3]
  rfl

theorem auditWith_ok_inv {ne : PyVal → PyVal → Bool} {srce trgt : DataFrame}
    {pk st_ tt_ : String} {omc : List String} {mrep : MissingReport} {xrep : MismatchReport}
    (h : (auditWith ne srce trgt pk st_ tt_ omc).2 = .ok (mrep, xrep)) :
    ∃ diffs,
      diffsOf ne (astypeStr (lowerCols srce)) (astypeStr (lowerCols trgt)) pk omc = .ok diffs ∧
      mrep = missingReportOf (astypeStr (lowerCols srce)) (astypeStr (lowerCols trgt)) pk st_ tt_ ∧
      xrep = mismatchReportOf diffs := by
  rw [auditWith_snd] at h
  split at h
  · cases h
  · split at h
    · cases h
    · cases hd : diffsOf ne (astypeStr (lowerCols srce)) (astypeStr (lowerCols trgt)) pk omc with
      | error e => rw [hd, exceptMap_error] at h; cases h
      | ok diffs =>
        rw [hd, exceptMap_ok] at h
        simp only [Except.ok.injEq, Prod.mk.injEq] at h
        exact ⟨diffs, rfl, h.1.symm, h.2.symm⟩

/-! ### Refinement of the differ to a plain string test on stringified frames -/

theorem cellAt_isStr {cols : List String} {r : List PyVal} {c : String}
    (hc : c ∈ cols) (hlen : r.length = cols.length)
    (hstr : ∀ v ∈ r, ∃ a, v = PyVal.str a) :
    ∃ a, cellAt cols r c = PyVal.str a := by
  obtain ⟨i, hi⟩ := colIndex_of_mem hc
  have hlt : i < r.length := by rw [hlen]; exact colIndex_lt_length hi
  rw [cellAt, hi]
  dsimp only
  have hg : r.getD i PyVal.nan = r[i] := by
    rw [List.getD_eq_getElem?_getD, List.getElem?_eq_getElem hlt]
    rfl
  rw [hg]
  exact hstr _ (List.getElem_mem hlt)

theorem mem_cols_of_mem_columnsToCompare {s : DataFrame} {pk c : String}
    {omc : List String} (hc : c ∈ columnsToCompare (idxColumns s pk) pk omc) :
    c ∈ s.cols := by
  simp only [columnsToCompare, List.mem_filter, idxColumns] at hc
  exact List.mem_of_mem_erase hc.1.1

theorem compareRowsForKey_congr {colsS colsT cc : List String} {k : PyVal}
    {sr tr : List PyVal}
    (hS : ∀ c ∈ cc, ∃ a, cellAt colsS sr c = PyVal.str a)
    (hT : ∀ c ∈ cc, ∃ b, cellAt colsT tr c = PyVal.str b) :
    compareRowsForKey cellDiffers colsS colsT cc k sr tr =
      compareRowsForKey plainStringNE colsS colsT cc k sr tr := by
  induction cc with
  | nil => rfl
  | cons c cs ih =>
    rw [compareRowsForKey_cons, compareRowsForKey_cons]
    obtain ⟨a, ha⟩ := hS c (List.mem_cons_self _ _)
    obtain ⟨b, hb⟩ := hT c (List.mem_cons_self _ _)
    rw [ha, hb, cellDiffers_str,
      ih (fun c' h' => hS c' (List.mem_cons_of_mem _ h'))
        (fun c' h' => hT c' (List.mem_cons_of_mem _ h'))]

theorem diffCommon_congr {colsS colsT cc : List String}
    {sIdx tIdx : List (PyVal × List PyVal)}
    (hS : ∀ p ∈ sIdx, ∀ c ∈ cc, ∃ a, cellAt colsS p.2 c = PyVal.str a)
    (hT : ∀ p ∈ tIdx, ∀ c ∈ cc, ∃ a, cellAt colsT p.2 c = PyVal.str a) :
    ∀ common, diffCommon cellDiffers colsS colsT cc sIdx tIdx common =
      diffCommon plainStringNE colsS colsT cc sIdx tIdx common := by
  intro common
  induction common with
  | nil => rfl
  | cons k ks ih =>
    by_cases hlen : (locFilter sIdx k).length = 1 ∧ (locFilter tIdx k).length = 1
    · obtain ⟨sr, hsr⟩ := List.length_eq_one.mp hlen.1
      obtain ⟨tr, htr⟩ := List.length_eq_one.mp hlen.2
      have hsrS : ∀ c ∈ cc, ∃ a, cellAt colsS sr c = PyVal.str a := by
        have hsrmem : sr ∈ locFilter sIdx k := by rw [hsr]; exact List.mem_singleton_self _
        simp only [locFilter, List.mem_map, List.mem_filter] at hsrmem
        obtain ⟨p, ⟨hp, _⟩, rfl⟩ := hsrmem
        exact hS p hp
      have htrT : ∀ c ∈ cc, ∃ a, cellAt colsT tr c = PyVal.str a := by
        have htrmem : tr ∈ locFilter tIdx k := by rw [htr]; exact List.mem_singleton_self _
        simp only [locFilter, List.mem_map, List.mem_filter] at htrmem
        obtain ⟨p, ⟨hp, _⟩, rfl⟩ := htrmem
        exact hT p hp
      rw [diffCommon_cons_single hsr htr, diffCommon_cons_single hsr htr, ih,
        compareRowsForKey_congr hsrS htrT]
    · rw [diffCommon_cons_bad (by tauto), diffCommon_cons_bad (by tauto), ih]

theorem diffsOf_congr {s t : DataFrame} {pk : String} {omc : List String}
    (hrowsS : ∀ r ∈ s.rows, r.length = s.cols.length ∧ ∀ v ∈ r, ∃ a, v = PyVal.str a)
    (hrowsT : ∀ r ∈ t.rows, r.length = t.cols.length ∧ ∀ v ∈ r, ∃ a, v = PyVal.str a)
    (hst : ∀ c, c ∈ s.cols → c ∈ t.cols) :
    diffsOf cellDiffers s t pk omc = diffsOf plainStringNE s t pk omc := by
  rw [diffsOf, diffsOf]
  apply diffCommon_congr
  · intro p hp c hc
    simp only [setIndex, List.mem_map] at hp
    obtain ⟨r, hr, rfl⟩ := hp
    obtain ⟨hlen, hstr⟩ := hrowsS r hr
    exact cellAt_isStr (mem_cols_of_mem_columnsToCompare hc) hlen hstr
  · intro p hp c hc
    simp only [setIndex, List.mem_map] at hp
    obtain ⟨r, hr, rfl⟩ := hp
    obtain ⟨hlen, hstr⟩ := hrowsT r hr
    exact cellAt_isStr (hst c (mem_cols_of_mem_columnsToCompare hc)) hlen hstr

theorem rows_astypeStr_str {df : DataFrame} {r : List PyVal}
    (hr : r ∈ (astypeStr df).rows) : ∀ v ∈ r, ∃ a, v = PyVal.str a := by
  simp only [astypeStr, List.mem_map] at hr
  obtain ⟨r0, _, rfl⟩ := hr
  intro v hv
  simp only [List.mem_map] at hv
  obtain ⟨v0, _, rfl⟩ := hv
  exact ⟨v0.pyStr, rfl⟩

theorem nodup_columnsToCompare {l : List String} (h : l.Nodup) (pk : String)
    (omc : List String) : (columnsToCompare (l.erase pk) pk omc).Nodup := by
  simp only [columnsToCompare]
  exact ((h.erase pk).filter _).filter _

theorem astype_lower_cols (df : DataFrame) :
    (astypeStr (lowerCols df)).cols = df.cols.map lowerStr := rfl

/-! ### Claim C2 -/

/-- C2, counterexample: a caller frame with an upper-case column name is not
left unchanged by the call — its column names are lower-cased in place. -/
theorem c2_counterexample :
    (audit_dataframe_differences ⟨["ID"], [[.str "1"]]⟩ ⟨["ID"], [[.str "1"]]⟩
      "id" "S" "T" []).1.1 ≠ (⟨["ID"], [[.str "1"]]⟩ : DataFrame) := by decide

/-- C2 (amended): cell stringification operates only on working copies — the
caller's cell values are never mutated — but the column lower-casing is
applied in place to the caller's frames, so the caller's column names come
back lower-cased. -/
theorem c2_cells_copied_columns_mutated (srce trgt : DataFrame)
    (pk st_ tt_ : String) (omc : List String) :
    ((audit_dataframe_differences srce trgt pk st_ tt_ omc).1.1.rows = srce.rows ∧
     (audit_dataframe_differences srce trgt pk st_ tt_ omc).1.2.rows = trgt.rows) ∧
    ((audit_dataframe_differences srce trgt pk st_ tt_ omc).1.1.cols = srce.cols.map lowerStr ∧
     (audit_dataframe_differences srce trgt pk st_ tt_ omc).1.2.cols = trgt.cols.map lowerStr) :=
  ⟨⟨rfl, rfl⟩, ⟨rfl, rfl⟩⟩

/-! ### Claim C9 -/

/-- C9: on every call, including those that end in a schema or missing-key
error, the caller's frames have had their column names lower-cased in place
(their cells untouched): validation failure is not atomic with respect to
caller state. -/
theorem c9_error_path_mutates_inputs (srce trgt : DataFrame) (pk st_ tt_ : String)
    (omc : List String) (e : String)
    (_ : (audit_dataframe_differences srce trgt pk st_ tt_ omc).2 = Except.error e) :
    (audit_dataframe_differences srce trgt pk st_ tt_ omc).1 =
      (⟨srce.cols.map lowerStr, srce.rows⟩, ⟨trgt.cols.map lowerStr, trgt.rows⟩) := rfl

/-- C9, witness: a schema-mismatch call errors, yet the caller's column
names come back lower-cased. -/
theorem c9_witness :
    (audit_dataframe_differences ⟨["ID", "x"], [[.str "1", .str "a"]]⟩
      ⟨["ID"], [[.str "1"]]⟩ "id" "S" "T" []).2 = Except.error schemaMismatchMsg ∧
    (audit_dataframe_differences ⟨["ID", "x"], [[.str "1", .str "a"]]⟩
      ⟨["ID"], [[.str "1"]]⟩ "id" "S" "T" []).1 =
      (⟨["ID", "x"].map lowerStr, [[.str "1", .str "a"]]⟩,
       ⟨["ID"].map lowerStr, [[.str "1"]]⟩) :=
  ⟨by decide,
   c9_error_path_mutates_inputs ⟨["ID", "x"], [[.str "1", .str "a"]]⟩
     ⟨["ID"], [[.str "1"]]⟩ "id" "S" "T" [] schemaMismatchMsg (by decide)⟩

/-! ### Claim C4 -/

/-- C4, counterexample: two calls with different symmetric differences of
column sets ({name,email} and {phone,city}) raise the same fixed ValueError
text, which therefore does not name the symmetric difference. -/
theorem c4_counterexample :
    (audit_dataframe_differences ⟨["id", "name"], [[.str "1", .str "a"]]⟩
      ⟨["id", "email"], [[.str "1", .str "b"]]⟩ "id" "S" "T" []).2 =
      Except.error schemaMismatchMsg ∧
    (audit_dataframe_differences ⟨["id", "phone"], [[.str "1", .str "a"]]⟩
      ⟨["id", "city"], [[.str "1", .str "b"]]⟩ "id" "S" "T" []).2 =
      Except.error schemaMismatchMsg ∧
    schemaMismatchMsg = "The DataFrames must have the same columns to compare." :=
  ⟨by decide, by decide, rfl⟩

/-- C4 (amended): whenever the canonicalized column-name sets of the two
tables differ, the call raises a ValueError before producing any report, but
the error carries a fixed message that does not name the symmetric
difference of the column sets. -/
theorem c4_schema_gate (srce trgt : DataFrame) (pk st_ tt_ : String) (omc : List String)
    (h : sameColSet (srce.cols.map lowerStr) (trgt.cols.map lowerStr) = false) :
    (audit_dataframe_differences srce trgt pk st_ tt_ omc).2 =
      Except.error schemaMismatchMsg := by
  rw [audit_dataframe_differences]
  exact auditWith_snd_schema_err h

/-- C4, witness: the schema gate at a concrete mismatching pair. -/
theorem c4_witness :
    sameColSet (["id", "name"].map lowerStr) (["id", "email"].map lowerStr) = false ∧
    (audit_dataframe_differences ⟨["id", "name"], [[.str "1", .str "a"]]⟩
      ⟨["id", "email"], [[.str "1", .str "b"]]⟩ "x" "S" "T" []).2 =
      Except.error schemaMismatchMsg :=
  ⟨by decide,
   c4_schema_gate ⟨["id", "name"], [[.str "1", .str "a"]]⟩
     ⟨["id", "email"], [[.str "1", .str "b"]]⟩ "x" "S" "T" [] (by decide)⟩

/-! ### Claim C3 -/

/-- C3, counterexample: both tables store the requested key column (as
"id"); the call's primaryKey "ID" differs from it only in case, yet the
missing-key ValueError is raised. -/
theorem c3_counterexample :
    (audit_dataframe_differences ⟨["id"], [[.str "1"]]⟩ ⟨["id"], [[.str "1"]]⟩
      "ID" "S" "T" []).2 = Except.error (missingKeyMsg "ID") := by decide

/-- C3 (amended): the primaryKey argument is matched verbatim (case-
sensitively) against the lower-cased column names: when it equals the
lower-casing of a stored column name on both sides, the missing-key error is
not raised (the call returns a report, or fails later only with the
duplicate-key ambiguity error); when it does not, the missing-key ValueError
is raised even if the column exists under another casing. -/
theorem c3_key_match_case_sensitive (srce trgt : DataFrame) (pk st_ tt_ : String)
    (omc : List String)
    (hschema : sameColSet (srce.cols.map lowerStr) (trgt.cols.map lowerStr) = true) :
    (pk ∈ srce.cols.map lowerStr ∧ pk ∈ trgt.cols.map lowerStr →
      (∃ rep, (audit_dataframe_differences srce trgt pk st_ tt_ omc).2 = Except.ok rep) ∨
      (audit_dataframe_differences srce trgt pk st_ tt_ omc).2 =
        Except.error ambiguousSeriesMsg) ∧
    (¬(pk ∈ srce.cols.map lowerStr ∧ pk ∈ trgt.cols.map lowerStr) →
      (audit_dataframe_differences srce trgt pk st_ tt_ omc).2 =
        Except.error (missingKeyMsg pk)) := by
  constructor
  · rintro ⟨hs, ht⟩
    have hs' : (astypeStr (lowerCols srce)).cols.contains pk = true := List.elem_iff.mpr hs
    have ht' : (astypeStr (lowerCols trgt)).cols.contains pk = true := List.elem_iff.mpr ht
    rw [audit_dataframe_differences, auditWith_snd_valid hschema hs' ht']
    cases hd : diffsOf cellDiffers (astypeStr (lowerCols srce)) (astypeStr (lowerCols trgt))
        pk omc with
    | ok diffs =>
      exact Or.inl ⟨_, rfl⟩
    | error e =>
      refine Or.inr ?_
      rw [exceptMap_error]
      rw [diffsOf] at hd
      rw [diffCommon_error_msg hd]
  · intro hn
    have h2 : ((astypeStr (lowerCols srce)).cols.contains pk &&
        (astypeStr (lowerCols trgt)).cols.contains pk) = false := by
      cases hcs : (astypeStr (lowerCols srce)).cols.contains pk with
      | false => rfl
      | true =>
        cases hct : (astypeStr (lowerCols trgt)).cols.contains pk with
        | false => rfl
        | true =>
          exact absurd ⟨List.elem_iff.mp hcs, List.elem_iff.mp hct⟩ hn
    rw [audit_dataframe_differences]
    exact auditWith_snd_key_err hschema h2

/-- C3, witness: with stored column "ID" and primaryKey "id" (differing only
in case), the call succeeds; the same theorem also covers the raising
direction. -/
theorem c3_witness :
    sameColSet (["ID"].map lowerStr) (["Id"].map lowerStr) = true ∧
    ("id" ∈ ["ID"].map lowerStr ∧ "id" ∈ ["Id"].map lowerStr →
      (∃ rep, (audit_dataframe_differences ⟨["ID"], [[.str "1"]]⟩ ⟨["Id"], [[.str "2"]]⟩
        "id" "S" "T" []).2 = Except.ok rep) ∨
      (audit_dataframe_differences ⟨["ID"], [[.str "1"]]⟩ ⟨["Id"], [[.str "2"]]⟩
        "id" "S" "T" []).2 = Except.error ambiguousSeriesMsg) ∧
    (¬("id" ∈ ["ID"].map lowerStr ∧ "id" ∈ ["Id"].map lowerStr) →
      (audit_dataframe_differences ⟨["ID"], [[.str "1"]]⟩ ⟨["Id"], [[.str "2"]]⟩
        "id" "S" "T" []).2 = Except.error (missingKeyMsg "id")) :=
  ⟨by decide,
   c3_key_match_case_sensitive ⟨["ID"], [[.str "1"]]⟩ ⟨["Id"], [[.str "2"]]⟩
     "id" "S" "T" [] (by decide)⟩

/-! ### Claim C1 -/

/-- C1, counterexample: the source side holds two rows with key "1" and the
target one; under last-write-wins the call would return a well-defined
report with no mismatch (the last source row equals the target row), but the
call raises pandas' Series truth-value ambiguity ValueError instead. -/
theorem c1_counterexample :
    (audit_dataframe_differences ⟨["id", "a"], [[.str "1", .str "x"], [.str "1", .str "y"]]⟩
      ⟨["id", "a"], [[.str "1", .str "y"]]⟩ "id" "S" "T" []).2 =
      Except.error ambiguousSeriesMsg := by decide

/-- C1 (amended): duplicate key values are not collapsed — the index keeps
every duplicate row.  Whenever a key value occurs on both sides, occurs more
than once on at least one side, and at least one column is compared, the
call raises the Series truth-value ambiguity ValueError instead of returning
a report; no last-write-wins indexing takes place. -/
theorem c1_duplicate_common_key_raises (srce trgt : DataFrame)
    (pk st_ tt_ : String) (omc : List String) (k : PyVal)
    (hschema : sameColSet (astypeStr (lowerCols srce)).cols
      (astypeStr (lowerCols trgt)).cols = true)
    (hpkS : (astypeStr (lowerCols srce)).cols.contains pk = true)
    (hpkT : (astypeStr (lowerCols trgt)).cols.contains pk = true)
    (hcc : columnsToCompare (idxColumns (astypeStr (lowerCols srce)) pk) pk omc ≠ [])
    (hkS : k ∈ keyVals (astypeStr (lowerCols srce)) pk)
    (hkT : k ∈ keyVals (astypeStr (lowerCols trgt)) pk)
    (hdup : 2 ≤ (keyVals (astypeStr (lowerCols srce)) pk).count k ∨
            2 ≤ (keyVals (astypeStr (lowerCols trgt)) pk).count k) :
    (audit_dataframe_differences srce trgt pk st_ tt_ omc).2 =
      Except.error ambiguousSeriesMsg := by
  rw [audit_dataframe_differences, auditWith_snd_valid hschema hpkS hpkT]
  have hk : k ∈ commonKeys (keyVals (astypeStr (lowerCols srce)) pk)
      (keyVals (astypeStr (lowerCols trgt)) pk) := mem_commonKeys.mpr ⟨hkS, hkT⟩
  have hbad : (locFilter (setIndex (astypeStr (lowerCols srce)) pk) k).length ≠ 1 ∨
      (locFilter (setIndex (astypeStr (lowerCols trgt)) pk) k).length ≠ 1 := by
    rcases hdup with hd | hd
    · left
      rw [length_locFilter]
      omega
    · right
      rw [length_locFilter]
      omega
  rw [diffsOf, diffCommon_error_of_bad hcc hk hbad, exceptMap_error]

/-- C1, witness: the amended theorem applied to a concrete pair with a
duplicated common key. -/
theorem c1_witness :
    (sameColSet (astypeStr (lowerCols ⟨["id", "a"],
        [[.str "7", .str "x"], [.str "7", .str "y"]]⟩)).cols
      (astypeStr (lowerCols ⟨["id", "a"], [[.str "7", .str "z"]]⟩)).cols = true ∧
     columnsToCompare (idxColumns (astypeStr (lowerCols ⟨["id", "a"],
        [[.str "7", .str "x"], [.str "7", .str "y"]]⟩)) "id") "id" [] ≠ [] ∧
     2 ≤ (keyVals (astypeStr (lowerCols ⟨["id", "a"],
        [[.str "7", .str "x"], [.str "7", .str "y"]]⟩)) "id").count (.str "7")) ∧
    (audit_dataframe_differences ⟨["id", "a"], [[.str "7", .str "x"], [.str "7", .str "y"]]⟩
      ⟨["id", "a"], [[.str "7", .str "z"]]⟩ "id" "S" "T" []).2 =
      Except.error ambiguousSeriesMsg :=
  ⟨⟨by decide, by decide, by decide⟩,
   c1_duplicate_common_key_raises
     ⟨["id", "a"], [[.str "7", .str "x"], [.str "7", .str "y"]]⟩
     ⟨["id", "a"], [[.str "7", .str "z"]]⟩ "id" "S" "T" [] (.str "7")
     (by decide) (by decide) (by decide) (by decide) (by decide) (by decide)
     (Or.inl (by decide))⟩

/-! ### Claim C7 -/

/-- C7, counterexample: a table with a duplicated key reconciled against
itself does not yield the two placeholder reports — the call raises the
Series truth-value ambiguity ValueError. -/
theorem c7_counterexample :
    (audit_dataframe_differences ⟨["id", "a"], [[.str "1", .str "x"], [.str "1", .str "y"]]⟩
      ⟨["id", "a"], [[.str "1", .str "x"], [.str "1", .str "y"]]⟩ "id" "S" "T" []).2 =
      Except.error ambiguousSeriesMsg := by decide

/-- C7 (amended): reconciling a table against itself yields the two
placeholder reports (empty MissingRecords, empty FieldMismatches) provided
its key column holds no duplicate values; with duplicates the call raises
instead. -/
theorem c7_self_reconciliation (T : DataFrame) (pk st_ tt_ : String) (omc : List String)
    (hpk : pk ∈ T.cols.map lowerStr)
    (hnd : (keyVals (astypeStr (lowerCols T)) pk).Nodup) :
    (audit_dataframe_differences T T pk st_ tt_ omc).2 =
      Except.ok (.placeholder MESSAGE_NO_MISMATCHED_RECORDS,
                 .placeholder MESSAGE_NO_DIFFERENCES_FOUND) := by
  have hpk' : (astypeStr (lowerCols T)).cols.contains pk = true := List.elem_iff.mpr hpk
  rw [audit_dataframe_differences, auditWith_snd_valid (sameColSet_refl _) hpk' hpk']
  have hsingle : ∀ k ∈ commonKeys (keyVals (astypeStr (lowerCols T)) pk)
      (keyVals (astypeStr (lowerCols T)) pk),
      ∃ r, locFilter (setIndex (astypeStr (lowerCols T)) pk) k = [r] := by
    intro k hk
    obtain ⟨r, _, _, heq⟩ := locFilter_single_of_mem hnd (mem_commonKeys.mp hk).1
    exact ⟨r, heq⟩
  rw [diffsOf, diffCommon_ok_of_single hsingle hsingle, exceptMap_ok]
  have hmissT : missingTargetRecs (astypeStr (lowerCols T)) (astypeStr (lowerCols T))
      pk tt_ = [] := by
    rw [missingTargetRecs, List.filter_eq_nil_iff.mpr ?_]
    · rfl
    intro r hr
    have hmem : cellAt (astypeStr (lowerCols T)).cols r pk ∈
        keyVals (astypeStr (lowerCols T)) pk := List.mem_map_of_mem _ hr
    simpa using hmem
  have hmissS : missingSourceRecs (astypeStr (lowerCols T)) (astypeStr (lowerCols T))
      pk st_ = [] := by
    rw [missingSourceRecs, List.filter_eq_nil_iff.mpr ?_]
    · rfl
    intro r hr
    have hmem : cellAt (astypeStr (lowerCols T)).cols r pk ∈
        keyVals (astypeStr (lowerCols T)) pk := List.mem_map_of_mem _ hr
    simpa using hmem
  have hflat : ((commonKeys (keyVals (astypeStr (lowerCols T)) pk)
      (keyVals (astypeStr (lowerCols T)) pk)).flatMap (fun k =>
        compareRowsForKey cellDiffers (astypeStr (lowerCols T)).cols
          (astypeStr (lowerCols T)).cols
          (columnsToCompare (idxColumns (astypeStr (lowerCols T)) pk) pk omc) k
          ((locFilter (setIndex (astypeStr (lowerCols T)) pk) k).headD [])
          ((locFilter (setIndex (astypeStr (lowerCols T)) pk) k).headD []))) = [] := by
    rw [List.flatMap_eq_nil_iff]
    intro k hk
    obtain ⟨r, hr⟩ := hsingle k hk
    rw [hr]
    exact compareRowsForKey_self _ _ _ _ _ _ cellDiffers_refl rfl
  rw [missingReportOf, hmissT, hmissS, hflat]
  rfl

/-- C7, witness: self-reconciliation of a concrete duplicate-free table
yields the two placeholders. -/
theorem c7_witness :
    ("id" ∈ (["ID", "a"].map lowerStr) ∧
     (keyVals (astypeStr (lowerCols ⟨["ID", "a"],
        [[.str "1", .str "x"], [.str "2", .str "y"]]⟩)) "id").Nodup) ∧
    (audit_dataframe_differences ⟨["ID", "a"], [[.str "1", .str "x"], [.str "2", .str "y"]]⟩
      ⟨["ID", "a"], [[.str "1", .str "x"], [.str "2", .str "y"]]⟩ "id" "S" "T" []).2 =
      Except.ok (.placeholder MESSAGE_NO_MISMATCHED_RECORDS,
                 .placeholder MESSAGE_NO_DIFFERENCES_FOUND) :=
  ⟨⟨by decide, by decide⟩,
   c7_self_reconciliation ⟨["ID", "a"], [[.str "1", .str "x"], [.str "2", .str "y"]]⟩
     "id" "S" "T" [] (by decide) (by decide)⟩

/-! ### Claim C6 -/

/-- C6: no emitted FieldMismatch ever names an excluded field (the exclusion
list being matched case-insensitively against the canonicalized column
names), and none ever names the primary-key column, whatever the exclusion
list. -/
theorem c6_excluded_fields_never_named (srce trgt : DataFrame) (pk st_ tt_ : String)
    (omc : List String) (mrep : MissingReport) (xrep : MismatchReport) (m : Mismatch)
    (h : (audit_dataframe_differences srce trgt pk st_ tt_ omc).2 = Except.ok (mrep, xrep))
    (hm : m ∈ xrep.toList) :
    (∀ f ∈ omc, m.column ≠ lowerStr f) ∧ m.column ≠ pk := by
  rw [audit_dataframe_differences] at h
  obtain ⟨diffs, hd, _, hxrep⟩ := auditWith_ok_inv h
  subst hxrep
  rw [toList_mismatchReportOf] at hm
  rw [diffsOf] at hd
  obtain ⟨hcol, _⟩ := diffCommon_ok_mem hd hm
  simp only [columnsToCompare, List.mem_filter] at hcol
  obtain ⟨⟨_, hnpk⟩, hnomit⟩ := hcol
  constructor
  · intro f hf heq
    have hmem : m.column ∈ omc.map lowerStr := List.mem_map.mpr ⟨f, hf, heq.symm⟩
    have hc : (omc.map lowerStr).contains m.column = true := List.elem_iff.mpr hmem
    rw [hc] at hnomit
    simp at hnomit
  · intro heq
    rw [heq] at hnpk
    simp at hnpk

/-- C6, witness: a call that emits a mismatch on column "a" while "B" is
excluded; the emitted mismatch names neither an excluded field nor the key. -/
theorem c6_witness :
    ((audit_dataframe_differences ⟨["id", "a", "B"], [[.str "1", .str "x", .str "u"]]⟩
       ⟨["id", "a", "b"], [[.str "1", .str "y", .str "v"]]⟩ "id" "S" "T" ["B"]).2 =
      Except.ok (.placeholder MESSAGE_NO_MISMATCHED_RECORDS,
                 .records [⟨.str "1", "a", .str "x", .str "y"⟩]) ∧
     (⟨.str "1", "a", .str "x", .str "y"⟩ : Mismatch) ∈
       (MismatchReport.records [⟨.str "1", "a", .str "x", .str "y"⟩]).toList) ∧
    ((∀ f ∈ ["B"], (⟨.str "1", "a", .str "x", .str "y"⟩ : Mismatch).column ≠ lowerStr f) ∧
     (⟨.str "1", "a", .str "x", .str "y"⟩ : Mismatch).column ≠ "id") :=
  ⟨⟨by decide, by decide⟩,
   c6_excluded_fields_never_named ⟨["id", "a", "B"], [[.str "1", .str "x", .str "u"]]⟩
     ⟨["id", "a", "b"], [[.str "1", .str "y", .str "v"]]⟩ "id" "S" "T" ["B"]
     (.placeholder MESSAGE_NO_MISMATCHED_RECORDS)
     (.records [⟨.str "1", "a", .str "x", .str "y"⟩])
     ⟨.str "1", "a", .str "x", .str "y"⟩ (by decide) (by decide)⟩

/-! ### Claim C8 -/

/-- C8: when a call returns, its MissingRecords output lists all
missing-in-target records first and all missing-in-source records second;
each record carries the side it is missing from ("Target"/"Source") and the
label of the opposite table in table_name (a row missing in the target
carries the target's label); when nothing is missing the fixed-message
placeholder is substituted.  Completeness: every row of a side whose key is
absent from the other side contributes its record. -/
theorem c8_missing_report_structure (srce trgt : DataFrame) (pk st_ tt_ : String)
    (omc : List String) (mrep : MissingReport) (xrep : MismatchReport)
    (h : (audit_dataframe_differences srce trgt pk st_ tt_ omc).2 = Except.ok (mrep, xrep)) :
    ((missingTargetRecs (astypeStr (lowerCols srce)) (astypeStr (lowerCols trgt)) pk tt_ = [] ∧
      missingSourceRecs (astypeStr (lowerCols srce)) (astypeStr (lowerCols trgt)) pk st_ = [] ∧
      mrep = .placeholder MESSAGE_NO_MISMATCHED_RECORDS) ∨
     mrep = .records
       (missingTargetRecs (astypeStr (lowerCols srce)) (astypeStr (lowerCols trgt)) pk tt_ ++
        missingSourceRecs (astypeStr (lowerCols srce)) (astypeStr (lowerCols trgt)) pk st_)) ∧
    (∀ rec ∈ missingTargetRecs (astypeStr (lowerCols srce)) (astypeStr (lowerCols trgt)) pk tt_,
      rec.missing_in = MISSING_IN_TARGET ∧ rec.table_name = tt_ ∧
      rec.key ∈ keyVals (astypeStr (lowerCols srce)) pk ∧
      rec.key ∉ keyVals (astypeStr (lowerCols trgt)) pk) ∧
    (∀ rec ∈ missingSourceRecs (astypeStr (lowerCols srce)) (astypeStr (lowerCols trgt)) pk st_,
      rec.missing_in = MISSING_IN_SOURCE ∧ rec.table_name = st_ ∧
      rec.key ∈ keyVals (astypeStr (lowerCols trgt)) pk ∧
      rec.key ∉ keyVals (astypeStr (lowerCols srce)) pk) ∧
    (∀ r ∈ (astypeStr (lowerCols srce)).rows,
      cellAt (astypeStr (lowerCols srce)).cols r pk ∉ keyVals (astypeStr (lowerCols trgt)) pk →
      (⟨cellAt (astypeStr (lowerCols srce)).cols r pk, MISSING_IN_TARGET, tt_⟩ : MissingRecord) ∈
        missingTargetRecs (astypeStr (lowerCols srce)) (astypeStr (lowerCols trgt)) pk tt_) ∧
    (∀ r ∈ (astypeStr (lowerCols trgt)).rows,
      cellAt (astypeStr (lowerCols trgt)).cols r pk ∉ keyVals (astypeStr (lowerCols srce)) pk →
      (⟨cellAt (astypeStr (lowerCols trgt)).cols r pk, MISSING_IN_SOURCE, st_⟩ : MissingRecord) ∈
        missingSourceRecs (astypeStr (lowerCols srce)) (astypeStr (lowerCols trgt)) pk st_) := by
  rw [audit_dataframe_differences] at h
  obtain ⟨diffs, _, hmrep, _⟩ := auditWith_ok_inv h
  subst hmrep
  refine ⟨?_, ?_, ?_, ?_, ?_⟩
  · rw [missingReportOf]
    split
    · next hE =>
      obtain ⟨h1, h2⟩ := List.append_eq_nil.mp (List.isEmpty_iff.mp hE)
      exact Or.inl ⟨h1, h2, rfl⟩
    · exact Or.inr rfl
  · intro rec hrec
    simp only [missingTargetRecs, List.mem_map, List.mem_filter] at hrec
    obtain ⟨r, ⟨hr, hpred⟩, rfl⟩ := hrec
    refine ⟨rfl, rfl, List.mem_map_of_mem _ hr, ?_⟩
    intro hmemT
    have hc : (keyVals (astypeStr (lowerCols trgt)) pk).contains
        (cellAt (astypeStr (lowerCols srce)).cols r pk) = true := List.elem_iff.mpr hmemT
    rw [hc] at hpred
    simp at hpred
  · intro rec hrec
    simp only [missingSourceRecs, List.mem_map, List.mem_filter] at hrec
    obtain ⟨r, ⟨hr, hpred⟩, rfl⟩ := hrec
    refine ⟨rfl, rfl, List.mem_map_of_mem _ hr, ?_⟩
    intro hmemS
    have hc : (keyVals (astypeStr (lowerCols srce)) pk).contains
        (cellAt (astypeStr (lowerCols trgt)).cols r pk) = true := List.elem_iff.mpr hmemS
    rw [hc] at hpred
    simp at hpred
  · intro r hr hnot
    simp only [missingTargetRecs, List.mem_map]
    refine ⟨r, ?_, rfl⟩
    rw [List.mem_filter]
    refine ⟨hr, ?_⟩
    cases hc : (keyVals (astypeStr (lowerCols trgt)) pk).contains
        (cellAt (astypeStr (lowerCols srce)).cols r pk) with
    | false => rfl
    | true => exact absurd (List.elem_iff.mp hc) hnot
  · intro r hr hnot
    simp only [missingSourceRecs, List.mem_map]
    refine ⟨r, ?_, rfl⟩
    rw [List.mem_filter]
    refine ⟨hr, ?_⟩
    cases hc : (keyVals (astypeStr (lowerCols srce)) pk).contains
        (cellAt (astypeStr (lowerCols trgt)).cols r pk) with
    | false => rfl
    | true => exact absurd (List.elem_iff.mp hc) hnot

/-- C8, witness: a concrete call whose source holds key 2 only and whose
target holds key 3 only; the theorem applies and the output's missing report
is the Target block followed by the Source block. -/
theorem c8_witness :
    ((audit_dataframe_differences ⟨["id", "a"], [[.str "1", .str "x"], [.str "2", .str "y"]]⟩
       ⟨["id", "a"], [[.str "1", .str "x"], [.str "3", .str "y"]]⟩ "id" "S" "T" []).2 =
      Except.ok (.records [⟨.str "2", "Target", "T"⟩, ⟨.str "3", "Source", "S"⟩],
                 .placeholder MESSAGE_NO_DIFFERENCES_FOUND)) ∧
    ((missingTargetRecs
        (astypeStr (lowerCols ⟨["id", "a"], [[.str "1", .str "x"], [.str "2", .str "y"]]⟩))
        (astypeStr (lowerCols ⟨["id", "a"], [[.str "1", .str "x"], [.str "3", .str "y"]]⟩))
        "id" "T" = [] ∧
      missingSourceRecs
        (astypeStr (lowerCols ⟨["id", "a"], [[.str "1", .str "x"], [.str "2", .str "y"]]⟩))
        (astypeStr (lowerCols ⟨["id", "a"], [[.str "1", .str "x"], [.str "3", .str "y"]]⟩))
        "id" "S" = [] ∧
      (MissingReport.records [⟨.str "2", "Target", "T"⟩, ⟨.str "3", "Source", "S"⟩]) =
        .placeholder MESSAGE_NO_MISMATCHED_RECORDS) ∨
     (MissingReport.records [⟨.str "2", "Target", "T"⟩, ⟨.str "3", "Source", "S"⟩]) =
       .records
         (missingTargetRecs
           (astypeStr (lowerCols ⟨["id", "a"], [[.str "1", .str "x"], [.str "2", .str "y"]]⟩))
           (astypeStr (lowerCols ⟨["id", "a"], [[.str "1", .str "x"], [.str "3", .str "y"]]⟩))
           "id" "T" ++
          missingSourceRecs
           (astypeStr (lowerCols ⟨["id", "a"], [[.str "1", .str "x"], [.str "2", .str "y"]]⟩))
           (astypeStr (lowerCols ⟨["id", "a"], [[.str "1", .str "x"], [.str "3", .str "y"]]⟩))
           "id" "S")) :=
  ⟨by decide,
   (c8_missing_report_structure ⟨["id", "a"], [[.str "1", .str "x"], [.str "2", .str "y"]]⟩
     ⟨["id", "a"], [[.str "1", .str "x"], [.str "3", .str "y"]]⟩ "id" "S" "T" []
     (.records [⟨.str "2", "Target", "T"⟩, ⟨.str "3", "Source", "S"⟩])
     (.placeholder MESSAGE_NO_DIFFERENCES_FOUND) (by decide)).1⟩

/-! ### Claim C5 -/

/-- C5, counterexample: the source cell is absent and the target cell is the
present string "nan"; the claim demands exactly one FieldMismatch for key
"1" and field "a" and that absent-vs-present always be judged unequal, but
the call reports no difference at all (both stringify to "nan"). -/
theorem c5_counterexample :
    (audit_dataframe_differences ⟨["id", "a"], [[.str "1", .nan]]⟩
      ⟨["id", "a"], [[.str "1", .str "nan"]]⟩ "id" "S" "T" []).2 =
      Except.ok (.placeholder MESSAGE_NO_MISMATCHED_RECORDS,
                 .placeholder MESSAGE_NO_DIFFERENCES_FOUND) := by decide

/-- C5 (amended): for a common key (unique on both sides) and a compared
field, the call returns a report and emits exactly one FieldMismatch for
that key and field when the string forms of the two original cells differ,
and none when they agree.  Since an absent cell stringifies to "nan":
absent-vs-absent emits nothing, and absent-vs-present emits exactly one
mismatch unless the present value's textual form is "nan"; no input makes
the comparison raise. -/
theorem c5_absence_mismatch_count (srce trgt : DataFrame) (pk st_ tt_ : String)
    (omc : List String) (rs rt : List PyVal) (c : String)
    (hWFs : srce.WF) (hWFt : trgt.WF)
    (hndC : (srce.cols.map lowerStr).Nodup)
    (hschema : sameColSet (astypeStr (lowerCols srce)).cols
      (astypeStr (lowerCols trgt)).cols = true)
    (hpkS : pk ∈ srce.cols.map lowerStr)
    (hpkT : pk ∈ trgt.cols.map lowerStr)
    (hndS : (keyVals (astypeStr (lowerCols srce)) pk).Nodup)
    (hndT : (keyVals (astypeStr (lowerCols trgt)) pk).Nodup)
    (hrs : rs ∈ srce.rows) (hrt : rt ∈ trgt.rows)
    (hkeys : (cellAt (srce.cols.map lowerStr) rs pk).pyStr =
             (cellAt (trgt.cols.map lowerStr) rt pk).pyStr)
    (hc : c ∈ columnsToCompare (idxColumns (astypeStr (lowerCols srce)) pk) pk omc) :
    ∃ diffs,
      (audit_dataframe_differences srce trgt pk st_ tt_ omc).2 =
        Except.ok (missingReportOf (astypeStr (lowerCols srce))
            (astypeStr (lowerCols trgt)) pk st_ tt_,
          mismatchReportOf diffs) ∧
      diffs.countP (fun m =>
          m.key == PyVal.str (cellAt (srce.cols.map lowerStr) rs pk).pyStr &&
          m.column == c) =
        (if (cellAt (srce.cols.map lowerStr) rs c).pyStr =
            (cellAt (trgt.cols.map lowerStr) rt c).pyStr then 0 else 1) := by
  -- well-formedness and key membership on the working frames
  have hpkS' : pk ∈ (astypeStr (lowerCols srce)).cols := hpkS
  have hpkT' : pk ∈ (astypeStr (lowerCols trgt)).cols := hpkT
  have hpkSc : (astypeStr (lowerCols srce)).cols.contains pk = true :=
    List.elem_iff.mpr hpkS'
  have hpkTc : (astypeStr (lowerCols trgt)).cols.contains pk = true :=
    List.elem_iff.mpr hpkT'
  have hlenS : rs.length = (astypeStr (lowerCols srce)).cols.length := by
    rw [astype_lower_cols, List.length_map]
    exact hWFs rs hrs
  have hlenT : rt.length = (astypeStr (lowerCols trgt)).cols.length := by
    rw [astype_lower_cols, List.length_map]
    exact hWFt rt hrt
  -- the stringified rows, their keys, and their index lookups
  have hrsS : rs.map strCell ∈ (astypeStr (lowerCols srce)).rows :=
    List.mem_map_of_mem _ hrs
  have hrtT : rt.map strCell ∈ (astypeStr (lowerCols trgt)).rows :=
    List.mem_map_of_mem _ hrt
  have hkS : cellAt (astypeStr (lowerCols srce)).cols (rs.map strCell) pk =
      PyVal.str (cellAt (srce.cols.map lowerStr) rs pk).pyStr :=
    cellAt_map_strCell hpkS' hlenS
  have hkT : cellAt (astypeStr (lowerCols trgt)).cols (rt.map strCell) pk =
      PyVal.str (cellAt (srce.cols.map lowerStr) rs pk).pyStr := by
    have h0 : cellAt (astypeStr (lowerCols trgt)).cols (rt.map strCell) pk =
        PyVal.str (cellAt (trgt.cols.map lowerStr) rt pk).pyStr :=
      cellAt_map_strCell hpkT' hlenT
    rw [h0, hkeys]
  have hlocS : locFilter (setIndex (astypeStr (lowerCols srce)) pk)
      (PyVal.str (cellAt (srce.cols.map lowerStr) rs pk).pyStr) = [rs.map strCell] :=
    locFilter_eq_single hndS hrsS hkS
  have hlocT : locFilter (setIndex (astypeStr (lowerCols trgt)) pk)
      (PyVal.str (cellAt (srce.cols.map lowerStr) rs pk).pyStr) = [rt.map strCell] :=
    locFilter_eq_single hndT hrtT hkT
  -- the key is common
  have hkSv : PyVal.str (cellAt (srce.cols.map lowerStr) rs pk).pyStr ∈
      keyVals (astypeStr (lowerCols srce)) pk := by
    rw [← hkS]
    exact List.mem_map_of_mem _ hrsS
  have hkTv : PyVal.str (cellAt (srce.cols.map lowerStr) rs pk).pyStr ∈
      keyVals (astypeStr (lowerCols trgt)) pk := by
    rw [← hkT]
    exact List.mem_map_of_mem _ hrtT
  have hkCommon : PyVal.str (cellAt (srce.cols.map lowerStr) rs pk).pyStr ∈
      commonKeys (keyVals (astypeStr (lowerCols srce)) pk)
        (keyVals (astypeStr (lowerCols trgt)) pk) := mem_commonKeys.mpr ⟨hkSv, hkTv⟩
  -- every common key has a unique row on each side
  have hSing : ∀ k' ∈ commonKeys (keyVals (astypeStr (lowerCols srce)) pk)
      (keyVals (astypeStr (lowerCols trgt)) pk),
      ∃ r, locFilter (setIndex (astypeStr (lowerCols srce)) pk) k' = [r] := by
    intro k' hk'
    obtain ⟨r, _, _, heq⟩ := locFilter_single_of_mem hndS (mem_commonKeys.mp hk').1
    exact ⟨r, heq⟩
  have hTing : ∀ k' ∈ commonKeys (keyVals (astypeStr (lowerCols srce)) pk)
      (keyVals (astypeStr (lowerCols trgt)) pk),
      ∃ r, locFilter (setIndex (astypeStr (lowerCols trgt)) pk) k' = [r] := by
    intro k' hk'
    obtain ⟨r, _, _, heq⟩ := locFilter_single_of_mem hndT (mem_commonKeys.mp hk').2
    exact ⟨r, heq⟩
  -- the call returns, with the comparison loop's output spelled out
  refine ⟨(commonKeys (keyVals (astypeStr (lowerCols srce)) pk)
      (keyVals (astypeStr (lowerCols trgt)) pk)).flatMap (fun k' =>
        compareRowsForKey cellDiffers (astypeStr (lowerCols srce)).cols
          (astypeStr (lowerCols trgt)).cols
          (columnsToCompare (idxColumns (astypeStr (lowerCols srce)) pk) pk omc) k'
          ((locFilter (setIndex (astypeStr (lowerCols srce)) pk) k').headD [])
          ((locFilter (setIndex (astypeStr (lowerCols trgt)) pk) k').headD [])), ?_, ?_⟩
  · rw [audit_dataframe_differences, auditWith_snd_valid hschema hpkSc hpkTc, diffsOf,
      diffCommon_ok_of_single hSing hTing, exceptMap_ok]
  -- counting the mismatches for this key and column
  · have hz : ∀ k' ∈ commonKeys (keyVals (astypeStr (lowerCols srce)) pk)
        (keyVals (astypeStr (lowerCols trgt)) pk),
        k' ≠ PyVal.str (cellAt (srce.cols.map lowerStr) rs pk).pyStr →
        (compareRowsForKey cellDiffers (astypeStr (lowerCols srce)).cols
          (astypeStr (lowerCols trgt)).cols
          (columnsToCompare (idxColumns (astypeStr (lowerCols srce)) pk) pk omc) k'
          ((locFilter (setIndex (astypeStr (lowerCols srce)) pk) k').headD [])
          ((locFilter (setIndex (astypeStr (lowerCols trgt)) pk) k').headD [])).countP
          (fun m =>
            m.key == PyVal.str (cellAt (srce.cols.map lowerStr) rs pk).pyStr &&
            m.column == c) = 0 := by
      intro k' _ hne
      apply List.countP_eq_zero.mpr
      intro m hm
      have hkeym : m.key = k' := (mem_compareRowsForKey hm).2
      simp [hkeym, hne]
    have h0 : ((commonKeys (keyVals (astypeStr (lowerCols srce)) pk)
        (keyVals (astypeStr (lowerCols trgt)) pk)).flatMap (fun k' =>
          compareRowsForKey cellDiffers (astypeStr (lowerCols srce)).cols
            (astypeStr (lowerCols trgt)).cols
            (columnsToCompare (idxColumns (astypeStr (lowerCols srce)) pk) pk omc) k'
            ((locFilter (setIndex (astypeStr (lowerCols srce)) pk) k').headD [])
            ((locFilter (setIndex (astypeStr (lowerCols trgt)) pk) k').headD []))).countP
        (fun m =>
          m.key == PyVal.str (cellAt (srce.cols.map lowerStr) rs pk).pyStr &&
          m.column == c) =
        (compareRowsForKey cellDiffers (astypeStr (lowerCols srce)).cols
          (astypeStr (lowerCols trgt)).cols
          (columnsToCompare (idxColumns (astypeStr (lowerCols srce)) pk) pk omc)
          (PyVal.str (cellAt (srce.cols.map lowerStr) rs pk).pyStr)
          ((locFilter (setIndex (astypeStr (lowerCols srce)) pk)
            (PyVal.str (cellAt (srce.cols.map lowerStr) rs pk).pyStr)).headD [])
          ((locFilter (setIndex (astypeStr (lowerCols trgt)) pk)
            (PyVal.str (cellAt (srce.cols.map lowerStr) rs pk).pyStr)).headD [])).countP
        (fun m =>
          m.key == PyVal.str (cellAt (srce.cols.map lowerStr) rs pk).pyStr &&
          m.column == c) :=
      countP_flatMap_single (nodup_commonKeys _ _) hkCommon hz
    rw [h0, hlocS, hlocT]
    simp only [List.headD_cons]
    have h1 : (compareRowsForKey cellDiffers (astypeStr (lowerCols srce)).cols
        (astypeStr (lowerCols trgt)).cols
        (columnsToCompare (idxColumns (astypeStr (lowerCols srce)) pk) pk omc)
        (PyVal.str (cellAt (srce.cols.map lowerStr) rs pk).pyStr)
        (rs.map strCell) (rt.map strCell)).countP
        (fun m =>
          m.key == PyVal.str (cellAt (srce.cols.map lowerStr) rs pk).pyStr &&
          m.column == c) =
        (compareRowsForKey cellDiffers (astypeStr (lowerCols srce)).cols
          (astypeStr (lowerCols trgt)).cols
          (columnsToCompare (idxColumns (astypeStr (lowerCols srce)) pk) pk omc)
          (PyVal.str (cellAt (srce.cols.map lowerStr) rs pk).pyStr)
          (rs.map strCell) (rt.map strCell)).countP (fun m => m.column == c) := by
      apply List.countP_congr
      intro m hm
      have hkeym : m.key = PyVal.str (cellAt (srce.cols.map lowerStr) rs pk).pyStr :=
        (mem_compareRowsForKey hm).2
      simp [hkeym]
    have hndcc : (columnsToCompare (idxColumns (astypeStr (lowerCols srce)) pk)
        pk omc).Nodup := nodup_columnsToCompare hndC pk omc
    rw [h1, countP_compareRowsForKey hc hndcc]
    have hcS : c ∈ (astypeStr (lowerCols srce)).cols := mem_cols_of_mem_columnsToCompare hc
    have hcT : c ∈ (astypeStr (lowerCols trgt)).cols := (sameColSet_mem hschema).mp hcS
    have hcellSc : cellAt (astypeStr (lowerCols srce)).cols (rs.map strCell) c =
        strCell (cellAt (srce.cols.map lowerStr) rs c) := cellAt_map_strCell hcS hlenS
    have hcellTc : cellAt (astypeStr (lowerCols trgt)).cols (rt.map strCell) c =
        strCell (cellAt (trgt.cols.map lowerStr) rt c) := cellAt_map_strCell hcT hlenT
    rw [hcellSc, hcellTc, cellDiffers_strCell]
    by_cases hx : (cellAt (srce.cols.map lowerStr) rs c).pyStr =
        (cellAt (trgt.cols.map lowerStr) rt c).pyStr <;> simp [hx]

/-- C5, witness: absent source cell against present target cell "x": the
hypotheses hold and exactly one mismatch is counted for key "1", field
"a". -/
theorem c5_witness :
    ((⟨["id", "a"], [[.str "1", .nan]]⟩ : DataFrame).WF ∧
     ((["id", "a"] : List String).map lowerStr).Nodup ∧
     (keyVals (astypeStr (lowerCols ⟨["id", "a"], [[.str "1", .nan]]⟩)) "id").Nodup ∧
     (cellAt (["id", "a"].map lowerStr) [.str "1", .nan] "id").pyStr =
       (cellAt (["id", "a"].map lowerStr) [.str "1", .str "x"] "id").pyStr ∧
     "a" ∈ columnsToCompare
       (idxColumns (astypeStr (lowerCols ⟨["id", "a"], [[.str "1", .nan]]⟩)) "id") "id" []) ∧
    (∃ diffs,
      (audit_dataframe_differences ⟨["id", "a"], [[.str "1", .nan]]⟩
        ⟨["id", "a"], [[.str "1", .str "x"]]⟩ "id" "S" "T" []).2 =
        Except.ok (missingReportOf (astypeStr (lowerCols ⟨["id", "a"], [[.str "1", .nan]]⟩))
            (astypeStr (lowerCols ⟨["id", "a"], [[.str "1", .str "x"]]⟩)) "id" "S" "T",
          mismatchReportOf diffs) ∧
      diffs.countP (fun m =>
          m.key == PyVal.str (cellAt (["id", "a"].map lowerStr) [.str "1", .nan] "id").pyStr &&
          m.column == "a") =
        (if (cellAt (["id", "a"].map lowerStr) [.str "1", .nan] "a").pyStr =
            (cellAt (["id", "a"].map lowerStr) [.str "1", .str "x"] "a").pyStr
         then 0 else 1)) :=
  ⟨⟨by decide, by decide, by decide, by decide, by decide⟩,
   c5_absence_mismatch_count ⟨["id", "a"], [[.str "1", .nan]]⟩
     ⟨["id", "a"], [[.str "1", .str "x"]]⟩ "id" "S" "T" []
     [.str "1", .nan] [.str "1", .str "x"] "a"
     (by decide) (by decide) (by decide) (by decide) (by decide) (by decide)
     (by decide) (by decide) (by decide) (by decide) (by decide) (by decide)⟩

/-! ### Claim C10 -/

/-- C10: after normalization no cell of the working tables satisfies the
absence predicate, so the Field Differ's two absence branches never fire and
the whole call is equivalent to the same pipeline with a plain
string-inequality test on the stringified cells; in particular a stringified
absent cell compares equal to a stringified present cell whose textual form
is "nan". -/
theorem c10_differ_plain_equiv (srce trgt : DataFrame) (pk st_ tt_ : String)
    (omc : List String) (hWFs : srce.WF) (hWFt : trgt.WF) :
    (∀ r ∈ (astypeStr (lowerCols srce)).rows, ∀ v ∈ r, v.isna = false) ∧
    (∀ r ∈ (astypeStr (lowerCols trgt)).rows, ∀ v ∈ r, v.isna = false) ∧
    audit_dataframe_differences srce trgt pk st_ tt_ omc =
      auditWith plainStringNE srce trgt pk st_ tt_ omc ∧
    cellDiffers (strCell PyVal.nan) (strCell (PyVal.str "nan")) = false := by
  refine ⟨?_, ?_, ?_, by decide⟩
  · intro r hr v hv
    obtain ⟨a, rfl⟩ := rows_astypeStr_str hr v hv
    rfl
  · intro r hr v hv
    obtain ⟨a, rfl⟩ := rows_astypeStr_str hr v hv
    rfl
  · have h2 : (audit_dataframe_differences srce trgt pk st_ tt_ omc).2 =
        (auditWith plainStringNE srce trgt pk st_ tt_ omc).2 := by
      by_cases hsc : sameColSet (astypeStr (lowerCols srce)).cols
          (astypeStr (lowerCols trgt)).cols = true
      · by_cases hk : ((astypeStr (lowerCols srce)).cols.contains pk &&
            (astypeStr (lowerCols trgt)).cols.contains pk) = true
        · obtain ⟨h2a, h2b⟩ : _ ∧ _ := by simpa using hk
          have h2a' : (astypeStr (lowerCols srce)).cols.contains pk = true :=
            List.elem_iff.mpr h2a
          have h2b' : (astypeStr (lowerCols trgt)).cols.contains pk = true :=
            List.elem_iff.mpr h2b
          rw [audit_dataframe_differences, auditWith_snd_valid hsc h2a' h2b',
            auditWith_snd_valid hsc h2a' h2b']
          congr 1
          apply diffsOf_congr
          · intro r hr
            exact ⟨WF_astypeStr (WF_lowerCols hWFs) r hr, rows_astypeStr_str hr⟩
          · intro r hr
            exact ⟨WF_astypeStr (WF_lowerCols hWFt) r hr, rows_astypeStr_str hr⟩
          · intro c hcs
            exact (sameColSet_mem hsc).mp hcs
        · have hk' : ((astypeStr (lowerCols srce)).cols.contains pk &&
              (astypeStr (lowerCols trgt)).cols.contains pk) = false :=
            Bool.eq_false_iff.mpr hk
          rw [audit_dataframe_differences, auditWith_snd_key_err hsc hk',
            auditWith_snd_key_err hsc hk']
      · have hf : sameColSet (astypeStr (lowerCols srce)).cols
            (astypeStr (lowerCols trgt)).cols = false := Bool.eq_false_iff.mpr hsc
        rw [audit_dataframe_differences, auditWith_snd_schema_err hf,
          auditWith_snd_schema_err hf]
    exact Prod.ext rfl h2

/-- C10, witness: the equivalence applied to concrete well-formed frames in
which an absent source cell faces the present string "nan". -/
theorem c10_witness :
    ((⟨["id", "a"], [[.str "1", .nan]]⟩ : DataFrame).WF ∧
     (⟨["id", "a"], [[.str "1", .str "nan"]]⟩ : DataFrame).WF) ∧
    audit_dataframe_differences ⟨["id", "a"], [[.str "1", .nan]]⟩
      ⟨["id", "a"], [[.str "1", .str "nan"]]⟩ "id" "S" "T" [] =
      auditWith plainStringNE ⟨["id", "a"], [[.str "1", .nan]]⟩
        ⟨["id", "a"], [[.str "1", .str "nan"]]⟩ "id" "S" "T" [] :=
  ⟨⟨by decide, by decide⟩,
   (c10_differ_plain_equiv ⟨["id", "a"], [[.str "1", .nan]]⟩
     ⟨["id", "a"], [[.str "1", .str "nan"]]⟩ "id" "S" "T" []
     (by decide) (by decide)).2.2.1⟩

